import Mathlib

/-!
Shallow embedding of the SKATT tabletop radio-telescope acquisition code
(files sdr_wrapper.py and tabletop_app.py), and proofs about it.

Conventions of the embedding:
* Python floats are modelled as rationals; a possibly non-finite numpy
  value (NaN or Inf) is modelled as Option of a rational, with Option.none
  standing for the non-finite case.
* Python exceptions are modelled with Except: a function that can raise
  returns Except of an error type, and each Python exception class is one
  constructor of that error type.
* The Gaussian draws of numpy.random.normal are modelled by an oracle of
  unit (standard-normal) draws; normal(size = n, scale = s) is the list of
  the first n oracle draws, each multiplied by s.
-/

set_option autoImplicit false

namespace Skatt

/-! ### Python primitives used by the code -/

/-- Python int() applied to a float: truncation toward zero. -/
def pyInt (q : ℚ) : ℤ := if 0 ≤ q then ⌊q⌋ else ⌈q⌉

/-- Python repr of a string with no quote or escape characters inside:
the string between single quotes. -/
def pyRepr (s : String) : String := "\x27" ++ s ++ "\x27"

/-- Numeric value of a list of decimal digit characters. -/
def digitsVal (cs : List Char) : ℕ :=
  cs.foldl (fun a c => 10 * a + (c.toNat - 48)) 0

/-- Consume an optional leading sign; the Bool is true when the sign
is a minus. -/
def takeSign : List Char → Bool × List Char
  | '-' :: r => (true, r)
  | '+' :: r => (false, r)
  | r => (false, r)

/-- The pieces of a parsed decimal float literal: sign, integer part,
fraction digits (as a value and a digit count), exponent sign and value. -/
structure FloatLit where
  neg : Bool
  intPart : ℕ
  fracDigits : ℕ
  fracLen : ℕ
  expNeg : Bool
  expVal : ℕ
deriving DecidableEq

/-- The rational value of a parsed decimal float literal. -/
def FloatLit.val (f : FloatLit) : ℚ :=
  (if f.neg then -1 else 1) * ((f.intPart : ℚ) + (f.fracDigits : ℚ) / 10 ^ f.fracLen) *
    (if f.expNeg then (1 / 10 : ℚ) ^ f.expVal else (10 : ℚ) ^ f.expVal)

/-- Scan the unsigned mantissa: digits, optionally followed by a point and
further digits, or a point followed by at least one digit. Returns the
integer part, the fraction digit value, the fraction digit count, and the
rest of the input. -/
def scanMantissa (cs : List Char) : Option ((ℕ × ℕ × ℕ) × List Char) :=
  match cs.takeWhile Char.isDigit, cs.dropWhile Char.isDigit with
  | [], '.' :: rest =>
    match rest.takeWhile Char.isDigit with
    | [] => none
    | fs => some ((0, digitsVal fs, fs.length), rest.dropWhile Char.isDigit)
  | [], _ => none
  | ds, '.' :: rest =>
    some ((digitsVal ds, digitsVal (rest.takeWhile Char.isDigit),
      (rest.takeWhile Char.isDigit).length), rest.dropWhile Char.isDigit)
  | ds, rest => some ((digitsVal ds, 0, 0), rest)

/-- Scan an exponent suffix after the letter e: an optional sign followed
by at least one digit, consuming the whole rest of the input. -/
def scanExp (r : List Char) : Option (Bool × ℕ) :=
  match takeSign r with
  | (eneg, r2) =>
    match r2.takeWhile Char.isDigit, r2.dropWhile Char.isDigit with
    | [], _ => none
    | _, _ :: _ => none
    | ds, [] => some (eneg, digitsVal ds)

/-- Scan a complete float literal: optional sign, mantissa, optional
exponent part introduced by e or E. -/
def scanFloat (s : String) : Option FloatLit :=
  match takeSign s.toList with
  | (neg, cs) =>
    match scanMantissa cs with
    | none => none
    | some ((ip, fv, fl), rest) =>
      match rest with
      | [] => some ⟨neg, ip, fv, fl, false, 0⟩
      | 'e' :: r => (scanExp r).map (fun p => ⟨neg, ip, fv, fl, p.1, p.2⟩)
      | 'E' :: r => (scanExp r).map (fun p => ⟨neg, ip, fv, fl, p.1, p.2⟩)
      | _ => none

/-- Model of the Python builtin float() on a string argument, for finite
decimal literals with optional sign, fraction and exponent (the forms the
program's gain strings take): Option.none when the string is not parseable
as a number. -/
def pyFloatOfString (s : String) : Option ℚ :=
  (scanFloat s).map FloatLit.val

/-! ### sdr_wrapper.py -/

/-- The Gain type of sdr_wrapper.py: a float or the literal string auto. -/
inductive Gain
  | auto
  | val (g : ℚ)
deriving DecidableEq

/-- The Python exceptions raised by sdr_wrapper.py, one constructor per
exception class (ValueError, TypeError, rtlsdr LibUSBError). -/
inductive SdrErr
  | valueError (msg : String)
  | typeError (msg : String)
  | libUSBError (msg : String)
deriving DecidableEq

/-- Argument passed to parse_gain: a string, or the Python value None. -/
inductive GainArg
  | text (s : String)
  | pyNone
deriving DecidableEq

/-- parse_gain of sdr_wrapper.py. On the literal auto it returns the
sentinel; otherwise it calls float(gain_str). For a string argument a
failing float() raises ValueError (not caught: the except clause catches
TypeError only); for None, float() raises TypeError, which is caught and
re-raised as TypeError with the repr of the argument in the message. -/
def parse_gain : GainArg → Except SdrErr Gain
  | .text s =>
    if s = "auto" then .ok .auto
    else
      match pyFloatOfString s with
      | some q => .ok (.val q)
      | none => .error (.valueError ("could not convert string to float: " ++ pyRepr s))
  | .pyNone => .error (.typeError ("Invalid gain string: " ++ "None"))

/-- The mutable fields of a MockRtlSdr device. -/
structure MockRtlSdr where
  sample_rate : ℚ
  center_freq : ℚ
  gain : Gain
deriving DecidableEq

/-- MockRtlSdr.__init__: sample_rate 2.048e6 Hz, center_freq 1420.4e6 Hz,
gain 1.0. -/
def MockRtlSdr.new : MockRtlSdr :=
  { sample_rate := 2048000, center_freq := 1420400000, gain := .val 1 }

/-- MockRtlSdr.MAX_READ_SAMPLES = 2 ** 24. -/
def MAX_READ_SAMPLES : ℤ := 2 ^ 24

/-- MockRtlSdr.close: the body is pass, so it returns None and leaves the
device state unchanged. -/
def MockRtlSdr.close (dev : MockRtlSdr) : Unit × MockRtlSdr := ((), dev)

/-- MockRtlSdr.get_gain: 1.0 when the gain field is the auto sentinel,
else the numeric gain. -/
def MockRtlSdr.get_gain (dev : MockRtlSdr) : ℚ :=
  match dev.gain with
  | .auto => 1
  | .val g => g

/-- MockRtlSdr.read_samples. The count is truncated with int(); a
non-positive result raises ValueError; a result above MAX_READ_SAMPLES
raises LibUSBError; otherwise the returned block pairs the first n real
and imaginary unit draws of the oracles zRe and zIm, each scaled by
scale = 0.01 * get_gain(). -/
def MockRtlSdr.read_samples (dev : MockRtlSdr) (zRe zIm : ℕ → ℚ)
    (num_samples : ℚ) : Except SdrErr (List (ℚ × ℚ)) :=
  if ¬ 0 < pyInt num_samples then
    .error (.valueError "Number of samples to read must be > 0")
  else if MAX_READ_SAMPLES < pyInt num_samples then
    .error (.libUSBError ("<LIBUSB_ERROR_NO_MEM (-11): Insufficient memory> " ++
      "Could not read " ++ toString (pyInt num_samples) ++ " bytes"))
  else
    .ok ((List.range (pyInt num_samples).toNat).map
      (fun i => ((1 / 100 : ℚ) * dev.get_gain * zRe i,
                 (1 / 100 : ℚ) * dev.get_gain * zIm i)))

/-! ### tabletop_app.py, normalization step of TabletopApp.sky_obs

The three lines
  HIspectrum = power_spectrum / self._baseline_power_spectrum
  HIspectrum = HIspectrum - np.min(HIspectrum)
  HIspectrum = HIspectrum / np.max(HIspectrum)
are embedded over possibly non-finite numpy float values: FloatV is
Option of a rational, with Option.none standing for a non-finite value
(NaN or Inf). Element-wise division follows numpy 1-d broadcasting:
equal lengths divide pointwise, a length-one operand is stretched, any
other mismatch raises a broadcast ValueError. np.min and np.max of an
empty array raise; on an array holding a non-finite value they return
NaN (the poisoning behaviour of np.min and np.max), modelled by fmin and
fmax returning Option.none when either side is Option.none. -/

/-- A numpy float value: some rational when finite, none when NaN/Inf. -/
abbrev FloatV := Option ℚ

/-- Division of numpy float values: non-finite when either operand is
non-finite or the denominator is zero. -/
def fdiv : FloatV → FloatV → FloatV
  | some a, some b => if b = 0 then none else some (a / b)
  | some _, none => none
  | none, _ => none

/-- Subtraction of numpy float values. -/
def fsub : FloatV → FloatV → FloatV
  | some a, some b => some (a - b)
  | some _, none => none
  | none, _ => none

/-- Binary minimum as used by np.min: NaN-poisoning. -/
def fmin : FloatV → FloatV → FloatV
  | some a, some b => some (min a b)
  | some _, none => none
  | none, _ => none

/-- Binary maximum as used by np.max: NaN-poisoning. -/
def fmax : FloatV → FloatV → FloatV
  | some a, some b => some (max a b)
  | some _, none => none
  | none, _ => none

/-- The numpy exceptions the normalization lines can raise. -/
inductive NpErr
  | broadcastError (msg : String)
  | emptyReduce (msg : String)
deriving DecidableEq

/-- Element-wise division of two 1-d arrays under numpy broadcasting:
equal lengths divide pointwise; a length-one operand is silently
stretched to the other length; any other length mismatch raises a
broadcast ValueError. -/
def npDiv (a b : List ℚ) : Except NpErr (List FloatV) :=
  if a.length = b.length then
    .ok (List.zipWith fdiv (a.map some) (b.map some))
  else if a.length = 1 then
    .ok (b.map (fun y => fdiv (some a.headI) (some y)))
  else if b.length = 1 then
    .ok (a.map (fun x => fdiv (some x) (some b.headI)))
  else
    .error (.broadcastError "operands could not be broadcast together")

/-- The rescaling lines of sky_obs: subtract np.min of the ratio array,
then divide by np.max of the shifted array. np.min of an empty array
raises; nothing guards the division, so a zero maximum produces
non-finite values. -/
def normalizeStep : List FloatV → Except NpErr (List FloatV)
  | [] => .error (.emptyReduce
      "zero-size array to reduction operation minimum which has no identity")
  | x :: xs =>
    let m := List.foldl fmin x xs
    let M := List.foldl fmax (fsub x m) (xs.map (fun w => fsub w m))
    .ok ((x :: xs).map (fun v => fdiv (fsub v m) M))

/-- The full normalization of TabletopApp.sky_obs lines 241 to 243:
element-wise ratio of observation to baseline, then rescale. -/
def sky_obs_normalize (power baseline : List ℚ) : Except NpErr (List FloatV) :=
  match npDiv power baseline with
  | .error e => .error e
  | .ok r => normalizeStep r

end Skatt

/-! ### Helper lemmas on folds of fmin and fmax -/

namespace Skatt

theorem foldl_fmin_map_some (a : ℚ) (l : List ℚ) :
    List.foldl fmin (some a) (l.map some) = some (List.foldl min a l) := by
  induction l generalizing a with
  | nil => rfl
  | cons b t ih => exact ih (min a b)

theorem foldl_fmax_some (a : ℚ) (f : ℚ → ℚ) (l : List ℚ) :
    List.foldl fmax (some a) (l.map (fun w => some (f w))) =
      some (List.foldl max a (l.map f)) := by
  induction l generalizing a with
  | nil => rfl
  | cons b t ih => exact ih (max a (f b))

theorem foldl_min_mem (a : ℚ) (l : List ℚ) : List.foldl min a l ∈ a :: l := by
  induction l generalizing a with
  | nil => simp
  | cons b t ih =>
    show List.foldl min (min a b) t ∈ a :: b :: t
    rcases List.mem_cons.mp (ih (min a b)) with h1 | h2
    · rcases min_choice a b with hc | hc
      · rw [h1, hc]; exact List.mem_cons_self _ _
      · rw [h1, hc]; exact List.mem_cons_of_mem _ (List.mem_cons_self _ _)
    · exact List.mem_cons_of_mem _ (List.mem_cons_of_mem _ h2)

theorem foldl_max_mem (a : ℚ) (l : List ℚ) : List.foldl max a l ∈ a :: l := by
  induction l generalizing a with
  | nil => simp
  | cons b t ih =>
    show List.foldl max (max a b) t ∈ a :: b :: t
    rcases List.mem_cons.mp (ih (max a b)) with h1 | h2
    · rcases max_choice a b with hc | hc
      · rw [h1, hc]; exact List.mem_cons_self _ _
      · rw [h1, hc]; exact List.mem_cons_of_mem _ (List.mem_cons_self _ _)
    · exact List.mem_cons_of_mem _ (List.mem_cons_of_mem _ h2)

theorem foldl_min_le (a : ℚ) (l : List ℚ) : ∀ y ∈ a :: l, List.foldl min a l ≤ y := by
  induction l generalizing a with
  | nil =>
    intro y hy
    rw [List.mem_singleton] at hy
    subst hy
    exact le_refl _
  | cons b t ih =>
    intro y hy
    have hfold : List.foldl min (min a b) t ≤ min a b :=
      ih (min a b) (min a b) (List.mem_cons_self _ _)
    rcases List.mem_cons.mp hy with rfl | h2
    · exact le_trans hfold (min_le_left _ _)
    rcases List.mem_cons.mp h2 with rfl | ht
    · exact le_trans hfold (min_le_right _ _)
    · exact ih (min a b) y (List.mem_cons_of_mem _ ht)

theorem le_foldl_max (a : ℚ) (l : List ℚ) : ∀ y ∈ a :: l, y ≤ List.foldl max a l := by
  induction l generalizing a with
  | nil =>
    intro y hy
    rw [List.mem_singleton] at hy
    subst hy
    exact le_refl _
  | cons b t ih =>
    intro y hy
    have hfold : max a b ≤ List.foldl max (max a b) t :=
      ih (max a b) (max a b) (List.mem_cons_self _ _)
    rcases List.mem_cons.mp hy with rfl | h2
    · exact le_trans (le_max_left _ _) hfold
    rcases List.mem_cons.mp h2 with rfl | ht
    · exact le_trans (le_max_right _ _) hfold
    · exact ih (max a b) y (List.mem_cons_of_mem _ ht)

theorem foldl_max_map_sub (c a : ℚ) (l : List ℚ) :
    List.foldl max (a - c) (l.map (fun w => w - c)) = List.foldl max a l - c := by
  induction l generalizing a with
  | nil => rfl
  | cons b t ih =>
    show List.foldl max (max (a - c) (b - c)) (t.map (fun w => w - c)) =
      List.foldl max (max a b) t - c
    rw [max_sub_sub_right]
    exact ih (max a b)

theorem normalizeStep_map_some (a : ℚ) (l : List ℚ)
    (hne : List.foldl max a l - List.foldl min a l ≠ 0) :
    normalizeStep ((a :: l).map some) =
      .ok (((a :: l).map (fun y =>
        (y - List.foldl min a l) / (List.foldl max a l - List.foldl min a l))).map some) := by
  rw [List.map_cons]
  simp only [normalizeStep]
  rw [foldl_fmin_map_some]
  rw [show fsub (some a) (some (List.foldl min a l)) = some (a - List.foldl min a l) from rfl]
  rw [show (List.map some l).map (fun w => fsub w (some (List.foldl min a l))) =
      l.map (fun w => some (w - List.foldl min a l)) from by rw [List.map_map]; rfl]
  rw [foldl_fmax_some, foldl_max_map_sub]
  rw [show (some a :: List.map some l) = (a :: l).map some from rfl]
  rw [List.map_map, List.map_map]
  refine congrArg Except.ok (congrArg (fun f => List.map f (a :: l)) ?_)
  funext y
  show fdiv (fsub (some y) (some (List.foldl min a l)))
      (some (List.foldl max a l - List.foldl min a l)) =
    some ((y - List.foldl min a l) / (List.foldl max a l - List.foldl min a l))
  rw [show fsub (some y) (some (List.foldl min a l)) =
      some (y - List.foldl min a l) from rfl]
  simp [fdiv, hne]

theorem zipWith_fdiv_map_some (obs base : List ℚ) (hbase : ∀ y ∈ base, y ≠ 0) :
    List.zipWith fdiv (obs.map some) (base.map some) =
      (List.zipWith (fun o b => o / b) obs base).map some := by
  induction obs generalizing base with
  | nil => simp
  | cons o ot ih =>
    cases base with
    | nil => simp
    | cons b bt =>
      have hb : b ≠ 0 := hbase b (List.mem_cons_self _ _)
      simp only [List.map_cons, List.zipWith_cons_cons]
      rw [show fdiv (some o) (some b) = some (o / b) from by simp [fdiv, hb]]
      rw [ih bt (fun y hy => hbase y (List.mem_cons_of_mem _ hy))]

theorem pyInt_intCast (n : ℤ) : pyInt (n : ℚ) = n := by
  unfold pyInt
  split
  · exact Int.floor_intCast n
  · exact Int.ceil_intCast n

end Skatt

/-! ### Claim theorems -/

namespace Skatt

/-- Claim C1: for every numeric count with 1 <= int(n) <= 2^24,
MockRtlSdr.read_samples returns a block of length exactly int(n); for
every count with int(n) <= 0 it raises ValueError and returns no block. -/
theorem read_samples_count_contract (dev : MockRtlSdr) (zRe zIm : ℕ → ℚ) (q : ℚ) :
    (1 ≤ pyInt q → pyInt q ≤ 2 ^ 24 →
      ∃ xs, dev.read_samples zRe zIm q = .ok xs ∧ (xs.length : ℤ) = pyInt q) ∧
    (pyInt q ≤ 0 →
      dev.read_samples zRe zIm q =
        .error (.valueError "Number of samples to read must be > 0")) := by
  constructor
  · intro h1 h2
    have hpos : 0 < pyInt q := h1
    have e : dev.read_samples zRe zIm q =
        .ok ((List.range (pyInt q).toNat).map
          (fun i => ((1 / 100 : ℚ) * dev.get_gain * zRe i,
                     (1 / 100 : ℚ) * dev.get_gain * zIm i))) := by
      unfold MockRtlSdr.read_samples
      rw [if_neg (not_not_intro hpos),
        if_neg (show ¬ MAX_READ_SAMPLES < pyInt q from
          not_lt.mpr (by simpa [MAX_READ_SAMPLES] using h2))]
    refine ⟨_, e, ?_⟩
    simp [Int.toNat_of_nonneg hpos.le]
  · intro h
    unfold MockRtlSdr.read_samples
    rw [if_pos (not_lt.mpr h)]

/-- Witness for C1 at the concrete count 5. -/
theorem read_samples_count_contract_witness :
    ∃ xs, MockRtlSdr.new.read_samples (fun _ => 0) (fun _ => 0) 5 = .ok xs ∧
      (xs.length : ℤ) = pyInt 5 :=
  (read_samples_count_contract MockRtlSdr.new (fun _ => 0) (fun _ => 0) 5).1
    (by decide) (by decide)

/-- Claim C2: for equal-length strictly-positive power arrays whose
element-wise ratio is not all-equal, the normalization of sky_obs yields
finite output entirely within the interval from 0 to 1, attaining 0 and
attaining 1. -/
theorem sky_obs_normalize_range (obs base : List ℚ)
    (hlen : obs.length = base.length)
    (_hobs : ∀ y ∈ obs, 0 < y) (hbase : ∀ y ∈ base, 0 < y)
    (hne : ∃ u ∈ List.zipWith (fun o b => o / b) obs base,
           ∃ v ∈ List.zipWith (fun o b => o / b) obs base, u ≠ v) :
    ∃ out : List ℚ,
      sky_obs_normalize obs base = .ok (out.map some) ∧
      (∀ z ∈ out, 0 ≤ z ∧ z ≤ 1) ∧ 0 ∈ out ∧ 1 ∈ out := by
  obtain ⟨u, hu, v, hv, huv⟩ := hne
  have hdiv : npDiv obs base =
      .ok ((List.zipWith (fun o b => o / b) obs base).map some) := by
    unfold npDiv
    rw [if_pos hlen, zipWith_fdiv_map_some obs base (fun y hy => (hbase y hy).ne')]
  cases hcase : List.zipWith (fun o b : ℚ => o / b) obs base with
  | nil => rw [hcase] at hu; exact absurd hu (List.not_mem_nil u)
  | cons r0 rt =>
  rw [hcase] at hdiv hu hv
  have hmn_lt_mx : List.foldl min r0 rt < List.foldl max r0 rt := by
    have h1 : List.foldl min r0 rt ≤ u := foldl_min_le r0 rt u hu
    have h2 : List.foldl min r0 rt ≤ v := foldl_min_le r0 rt v hv
    have h3 : u ≤ List.foldl max r0 rt := le_foldl_max r0 rt u hu
    have h4 : v ≤ List.foldl max r0 rt := le_foldl_max r0 rt v hv
    rcases lt_or_gt_of_ne huv with h | h
    · exact lt_of_le_of_lt h1 (lt_of_lt_of_le h h4)
    · exact lt_of_le_of_lt h2 (lt_of_lt_of_le h h3)
  have hMpos : 0 < List.foldl max r0 rt - List.foldl min r0 rt :=
    sub_pos.mpr hmn_lt_mx
  have hM : List.foldl max r0 rt - List.foldl min r0 rt ≠ 0 := ne_of_gt hMpos
  refine ⟨(r0 :: rt).map (fun y =>
      (y - List.foldl min r0 rt) /
        (List.foldl max r0 rt - List.foldl min r0 rt)), ?_, ?_, ?_, ?_⟩
  · unfold sky_obs_normalize
    rw [hdiv]
    exact normalizeStep_map_some r0 rt hM
  · intro z hz
    obtain ⟨y, hy, rfl⟩ := List.mem_map.mp hz
    constructor
    · exact div_nonneg (sub_nonneg.mpr (foldl_min_le r0 rt y hy)) (le_of_lt hMpos)
    · rw [div_le_one hMpos]
      exact sub_le_sub_right (le_foldl_max r0 rt y hy) _
  · refine List.mem_map.mpr ⟨List.foldl min r0 rt, foldl_min_mem r0 rt, ?_⟩
    simp
  · refine List.mem_map.mpr ⟨List.foldl max r0 rt, foldl_max_mem r0 rt, ?_⟩
    exact div_self hM

/-- Witness for C2 at observation [1, 3] against baseline [1, 1]. -/
theorem sky_obs_normalize_range_witness :
    ∃ out : List ℚ,
      sky_obs_normalize [1, 3] [1, 1] = .ok (out.map some) ∧
      (∀ z ∈ out, 0 ≤ z ∧ z ≤ 1) ∧ 0 ∈ out ∧ 1 ∈ out :=
  sky_obs_normalize_range [1, 3] [1, 1] (by decide) (by norm_num) (by norm_num)
    (by refine ⟨1, ?_, 3, ?_, by norm_num⟩ <;> norm_num [List.zipWith])

/-- Claim C3: for every text that is neither the literal auto nor
parseable as a number, parse_gain raises an error whose message carries
the original text, and returns no value; for None it raises TypeError
with the repr of None in the message. -/
theorem parse_gain_error_text :
    (∀ s : String, s ≠ "auto" → pyFloatOfString s = none →
      parse_gain (.text s) =
        .error (.valueError ("could not convert string to float: " ++ pyRepr s)) ∧
      ∃ pre suf, ("could not convert string to float: " ++ pyRepr s) = pre ++ s ++ suf) ∧
    parse_gain .pyNone = .error (.typeError ("Invalid gain string: " ++ "None")) := by
  refine ⟨?_, rfl⟩
  intro s hs hnone
  constructor
  · simp only [parse_gain]
    rw [if_neg hs, hnone]
  · refine ⟨"could not convert string to float: " ++ "\x27", "\x27", ?_⟩
    simp [pyRepr, ← String.append_assoc]

/-- Witness for C3 at the concrete text abc. -/
theorem parse_gain_error_text_witness :
    ("abc" : String) ≠ "auto" ∧ pyFloatOfString "abc" = none ∧
    (parse_gain (.text "abc") =
        .error (.valueError ("could not convert string to float: " ++ pyRepr "abc")) ∧
      ∃ pre suf, ("could not convert string to float: " ++ pyRepr "abc") =
        pre ++ "abc" ++ suf) :=
  ⟨by decide, by decide,
    parse_gain_error_text.1 "abc" (by decide) (by decide)⟩

/-- Claim C4: for every count with int(n) > 2^24, read_samples raises the
LibUSBError resource error, a constructor distinct from the ValueError
raised for non-positive counts, and returns no block. -/
theorem read_samples_over_limit (dev : MockRtlSdr) (zRe zIm : ℕ → ℚ) (q : ℚ)
    (h : 2 ^ 24 < pyInt q) :
    dev.read_samples zRe zIm q =
      .error (.libUSBError ("<LIBUSB_ERROR_NO_MEM (-11): Insufficient memory> " ++
        "Could not read " ++ toString (pyInt q) ++ " bytes")) ∧
    (∀ m1 m2 : String, SdrErr.libUSBError m1 ≠ SdrErr.valueError m2) := by
  constructor
  · have hpos : 0 < pyInt q := lt_trans (by norm_num) h
    unfold MockRtlSdr.read_samples
    rw [if_neg (not_not_intro hpos),
      if_pos (show MAX_READ_SAMPLES < pyInt q from by simpa [MAX_READ_SAMPLES] using h)]
  · intro m1 m2 hc
    exact SdrErr.noConfusion hc

/-- Witness for C4 at the concrete count 2^24 + 1 = 16777217. -/
theorem read_samples_over_limit_witness :
    MockRtlSdr.new.read_samples (fun _ => 0) (fun _ => 0) 16777217 =
      .error (.libUSBError ("<LIBUSB_ERROR_NO_MEM (-11): Insufficient memory> " ++
        "Could not read " ++ toString (pyInt 16777217) ++ " bytes")) ∧
    (∀ m1 m2 : String, SdrErr.libUSBError m1 ≠ SdrErr.valueError m2) :=
  read_samples_over_limit MockRtlSdr.new (fun _ => 0) (fun _ => 0) 16777217 (by decide)

/-- Claim C5: a successful read returns the unit draws scaled, in both
components, by 0.01 times the effective gain, where the effective gain is
1.0 when the device gain is the auto sentinel and the numeric gain
otherwise. -/
theorem read_samples_gauss_scale (dev : MockRtlSdr) (zRe zIm : ℕ → ℚ) (q : ℚ)
    (h1 : 0 < pyInt q) (h2 : pyInt q ≤ 2 ^ 24) :
    dev.read_samples zRe zIm q =
      .ok ((List.range (pyInt q).toNat).map
        (fun i => ((1 / 100 : ℚ) * dev.get_gain * zRe i,
                   (1 / 100 : ℚ) * dev.get_gain * zIm i))) ∧
    (dev.gain = .auto → dev.get_gain = 1) ∧
    (∀ g : ℚ, dev.gain = .val g → dev.get_gain = g) := by
  refine ⟨?_, ?_, ?_⟩
  · unfold MockRtlSdr.read_samples
    rw [if_neg (not_not_intro h1),
      if_neg (show ¬ MAX_READ_SAMPLES < pyInt q from
        not_lt.mpr (by simpa [MAX_READ_SAMPLES] using h2))]
  · intro ha; simp [MockRtlSdr.get_gain, ha]
  · intro g hg; simp [MockRtlSdr.get_gain, hg]

/-- Witness for C5 on a device with numeric gain 2 and count 3. -/
theorem read_samples_gauss_scale_witness :
    ({ MockRtlSdr.new with gain := .val 2 } : MockRtlSdr).read_samples
        (fun i => i) (fun i => i) 3 =
      .ok ((List.range (pyInt 3).toNat).map
        (fun i => ((1 / 100 : ℚ) *
            ({ MockRtlSdr.new with gain := .val 2 } : MockRtlSdr).get_gain * i,
          (1 / 100 : ℚ) *
            ({ MockRtlSdr.new with gain := .val 2 } : MockRtlSdr).get_gain * i))) ∧
    (({ MockRtlSdr.new with gain := .val 2 } : MockRtlSdr).gain = .auto →
      ({ MockRtlSdr.new with gain := .val 2 } : MockRtlSdr).get_gain = 1) ∧
    (∀ g : ℚ, ({ MockRtlSdr.new with gain := .val 2 } : MockRtlSdr).gain = .val g →
      ({ MockRtlSdr.new with gain := .val 2 } : MockRtlSdr).get_gain = g) :=
  read_samples_gauss_scale { MockRtlSdr.new with gain := .val 2 }
    (fun i => i) (fun i => i) 3 (by decide) (by decide)

/-- Claim C6, amended: unequal-length inputs to the sky_obs normalization
raise a broadcast error, except that a length-one operand is silently
broadcast by numpy. The theorem proves the amended error case. -/
theorem sky_obs_normalize_mismatch (obs base : List ℚ)
    (h : obs.length ≠ base.length) (h1 : obs.length ≠ 1) (h2 : base.length ≠ 1) :
    sky_obs_normalize obs base =
      .error (.broadcastError "operands could not be broadcast together") := by
  unfold sky_obs_normalize npDiv
  rw [if_neg h, if_neg h1, if_neg h2]

/-- Witness for the amended C6 at lengths 2 and 3. -/
theorem sky_obs_normalize_mismatch_witness :
    sky_obs_normalize [1, 2] [1, 2, 3] =
      .error (.broadcastError "operands could not be broadcast together") :=
  sky_obs_normalize_mismatch [1, 2] [1, 2, 3] (by decide) (by decide) (by decide)

/-- Counterexample to C6 as stated: lengths 2 and 1 differ, yet the
normalization succeeds, because numpy broadcasting silently stretches the
length-one baseline. -/
theorem sky_obs_normalize_length_one_cex :
    ([2, 4] : List ℚ).length ≠ ([1] : List ℚ).length ∧
    sky_obs_normalize [2, 4] [1] = .ok [some 0, some 1] := by
  constructor
  · decide
  · show normalizeStep [fdiv (some 2) (some 1), fdiv (some 4) (some 1)] = _
    rw [show fdiv (some 2) (some 1) = some 2 from by norm_num [fdiv],
        show fdiv (some 4) (some 1) = some 4 from by norm_num [fdiv]]
    show Except.ok [fdiv (fsub (some 2) (List.foldl fmin (some 2) [some 4]))
        (List.foldl fmax (fsub (some 2) (List.foldl fmin (some 2) [some 4]))
          ([some 4].map (fun w => fsub w (List.foldl fmin (some 2) [some 4])))),
      fdiv (fsub (some 4) (List.foldl fmin (some 2) [some 4]))
        (List.foldl fmax (fsub (some 2) (List.foldl fmin (some 2) [some 4]))
          ([some 4].map (fun w => fsub w (List.foldl fmin (some 2) [some 4]))))] = _
    norm_num [fmin, fmax, fsub, fdiv]

/-- Claim C7: on an all-equal ratio the code divides by a zero maximum and
returns non-finite values with no detection: evaluating the normalization
at observation = baseline = [1, 1] yields a successfully returned array of
NaN values, disproving that the degenerate case is handled. -/
theorem sky_obs_normalize_degenerate_nan :
    sky_obs_normalize [1, 1] [1, 1] = .ok [none, none] := by
  show normalizeStep (List.zipWith fdiv [some 1, some 1] [some 1, some 1]) = _
  rw [show List.zipWith fdiv [some (1:ℚ), some 1] [some 1, some 1] =
      [some 1, some 1] from by norm_num [fdiv]]
  show Except.ok [fdiv (fsub (some 1) (List.foldl fmin (some 1) [some 1]))
      (List.foldl fmax (fsub (some 1) (List.foldl fmin (some 1) [some 1]))
        ([some 1].map (fun w => fsub w (List.foldl fmin (some 1) [some 1])))),
    fdiv (fsub (some 1) (List.foldl fmin (some 1) [some 1]))
      (List.foldl fmax (fsub (some 1) (List.foldl fmin (some 1) [some 1]))
        ([some 1].map (fun w => fsub w (List.foldl fmin (some 1) [some 1]))))] = _
  norm_num [fmin, fmax, fsub, fdiv]

/-- Claim C8: parse_gain returns the auto sentinel on the literal auto and
the parsed float on numeric text, for example 3.5; it is a pure function
of its argument. -/
theorem parse_gain_values :
    parse_gain (.text "auto") = .ok .auto ∧
    parse_gain (.text "3.5") = .ok (.val (7 / 2)) ∧
    (∀ (s : String) (q : ℚ), pyFloatOfString s = some q →
      parse_gain (.text s) = .ok (.val q)) := by
  refine ⟨rfl, ?_, ?_⟩
  · have h : scanFloat "3.5" = some ⟨false, 3, 5, 1, false, 0⟩ := by decide
    show parse_gain (.text "3.5") = .ok (.val (7 / 2))
    simp only [parse_gain]
    rw [if_neg (by decide : ("3.5" : String) ≠ "auto")]
    rw [show pyFloatOfString "3.5" = some ((7 : ℚ) / 2) from by
      simp [pyFloatOfString, h, FloatLit.val]; norm_num]
  · intro s q hq
    simp only [parse_gain]
    by_cases hs : s = "auto"
    · subst hs
      rw [show pyFloatOfString "auto" = none from by decide] at hq
      exact absurd hq (by simp)
    · rw [if_neg hs, hq]

/-- Witness for C8 at the concrete text 2.5. -/
theorem parse_gain_values_witness :
    pyFloatOfString "2.5" = some (5 / 2) ∧
    parse_gain (.text "2.5") = .ok (.val (5 / 2)) := by
  have h : pyFloatOfString "2.5" = some (5 / 2) := by
    have hs : scanFloat "2.5" = some ⟨false, 2, 5, 1, false, 0⟩ := by decide
    simp [pyFloatOfString, hs, FloatLit.val]; norm_num
  exact ⟨h, parse_gain_values.2.2 "2.5" (5 / 2) h⟩

/-- Claim C9: close succeeds on any device, including a freshly
constructed one, returns the unit value, and leaves sample_rate,
center_freq and gain unchanged. -/
theorem close_noop (dev : MockRtlSdr) :
    dev.close = ((), dev) ∧
    (dev.close).2.sample_rate = dev.sample_rate ∧
    (dev.close).2.center_freq = dev.center_freq ∧
    (dev.close).2.gain = dev.gain :=
  ⟨rfl, rfl, rfl, rfl⟩

/-- Claim C10: read_samples truncates its count toward zero before
validating: it behaves on x exactly as on int(x), and for 0 < x < 1 it
raises the invalid-argument ValueError although x is positive. -/
theorem read_samples_truncates (dev : MockRtlSdr) (zRe zIm : ℕ → ℚ) (x : ℚ) :
    dev.read_samples zRe zIm x = dev.read_samples zRe zIm ((pyInt x : ℤ) : ℚ) ∧
    (0 < x → x < 1 →
      dev.read_samples zRe zIm x =
        .error (.valueError "Number of samples to read must be > 0")) := by
  constructor
  · unfold MockRtlSdr.read_samples
    rw [pyInt_intCast]
  · intro hx0 hx1
    have h0 : pyInt x = 0 := by
      unfold pyInt
      rw [if_pos hx0.le]
      exact Int.floor_eq_zero_iff.mpr ⟨hx0.le, hx1⟩
    unfold MockRtlSdr.read_samples
    rw [if_pos (by rw [h0]; exact lt_irrefl 0)]

/-- Witness for C10 at the concrete fractional count one half. -/
theorem read_samples_truncates_witness :
    MockRtlSdr.new.read_samples (fun _ => 0) (fun _ => 0) (1 / 2) =
      .error (.valueError "Number of samples to read must be > 0") :=
  (read_samples_truncates MockRtlSdr.new (fun _ => 0) (fun _ => 0) (1 / 2)).2
    (by norm_num) (by norm_num)

end Skatt
